import Mathlib

/-!
# Todo service (`src/Todo.go`): handlers over a document store

A shallow embedding of the four request handlers of `src/Todo.go`
(`createTodo`, `fetchTodos`, `updateTodo`, `deleteTodo`) together with the
collaborators they call, none of which is part of the repository's sources:
the identifier type of the MongoDB driver (`primitive.ObjectID`, its `Hex` form
and `ObjectIDFromHex`), `strings.TrimSpace`, the marshalling of a response body
by `encoding/json`, and the todo collection of the document store.

Conventions.
* A Go `string` that is handled byte-wise (the `{id}` path parameter, the
  hexadecimal form of an identifier) is a list of byte values (`List Nat`).
* A title is text decoded by `encoding/json`, which always yields valid UTF-8;
  it is a `String`, and `strings.TrimSpace` works on its code points.
* Every call that leaves the process (store operations) takes the error the
  call may come back with as an explicit argument (`none`: the call succeeded);
  a store call that fails leaves the collection as it was.
* The outcome of `json.NewDecoder(r.Body).Decode(&t)` is an input of a handler:
  the decoded `todo`, or the error of the decoder.
-/

deriving instance DecidableEq for Except

namespace Todo

/-! ## Identifiers -/

/-- The identifier type `primitive.ObjectID`, a `[12]byte` array. -/
structure ObjectID where
  bytes : List Nat
  size_eq : bytes.length = 12
  byte_lt : ∀ b ∈ bytes, b < 256
deriving DecidableEq

/-- The zero identifier `primitive.NilObjectID`. -/
def NilObjectID : ObjectID :=
  ⟨List.replicate 12 0, by decide, by decide⟩

/-- The method `ObjectID.IsZero`: the identifier is the all-zero array. -/
def ObjectID.IsZero (id : ObjectID) : Bool := decide (id = NilObjectID)

/-- The table `hextable = "0123456789abcdef"` of the standard package
`encoding/hex`, by index: the ASCII code of the digit. -/
def hextable (n : Nat) : Nat :=
  if n < 10 then 48 + n else 87 + n

/-- The function `hex.Encode` of the standard library: two lower-case hexadecimal digits per byte,
high nibble (`v >> 4`) first, then low nibble (`v & 0x0f`). -/
def hexEncode : List Nat → List Nat
  | [] => []
  | v :: rest => hextable (v / 16) :: hextable (v % 16) :: hexEncode rest

/-- Modelled from the spec: the method `ObjectID.Hex` of the MongoDB driver
(package `bson/primitive`, not part of the repository's sources), which gives
the canonical string form of an identifier, the `todo_id` of a response:
`hex.Encode` of its twelve bytes, 24 hexadecimal digits. -/
def ObjectID.Hex (id : ObjectID) : List Nat := hexEncode id.bytes

/-- The function `fromHexChar` of `encoding/hex`: the value of one hexadecimal
digit, in either case, or failure. -/
def fromHexChar (c : Nat) : Option Nat :=
  if 48 ≤ c ∧ c ≤ 57 then some (c - 48)
  else if 97 ≤ c ∧ c ≤ 102 then some (c - 97 + 10)
  else if 65 ≤ c ∧ c ≤ 70 then some (c - 65 + 10)
  else none

/-- The error values of `encoding/hex` and `bson/primitive` that a failed parse
of an identifier returns. -/
inductive HexError where
  | invalidByte (b : Nat)
  | errLength
  | errInvalidHex
deriving DecidableEq

/-- The function `hex.Decode`: consumes the source two bytes at a time, each
pair giving the byte `(a << 4) | b`; a byte that is no hexadecimal digit is an
`InvalidByteError`, a trailing single digit is `ErrLength`. -/
def hexDecode : List Nat → Except HexError (List Nat)
  | [] => .ok []
  | [p] =>
    match fromHexChar p with
    | none => .error (.invalidByte p)
    | some _ => .error .errLength
  | p :: q :: rest =>
    match fromHexChar p with
    | none => .error (.invalidByte p)
    | some a =>
      match fromHexChar q with
      | none => .error (.invalidByte q)
      | some b =>
        match hexDecode rest with
        | .error e => .error e
        | .ok out => .ok ((a * 16 + b) :: out)

/-- Modelled from the spec: the function `primitive.ObjectIDFromHex` of the
MongoDB driver (not part of the repository's sources), which parses the `{id}`
of a path as the canonical string form of an identifier: a string whose length
is not 24 is `ErrInvalidHex`, otherwise the result is that of `hex.Decode` into
the twelve bytes of the identifier. -/
def ObjectIDFromHex (s : List Nat) : Except HexError ObjectID :=
  if s.length ≠ 24 then .error .errInvalidHex
  else
    match hexDecode s with
    | .error e => .error e
    | .ok out =>
      if h : out.length = 12 ∧ ∀ b ∈ out, b < 256 then .ok ⟨out, h.1, h.2⟩
      else .error .errInvalidHex

/-! ## Data model -/

/-- A `time.Time` instant, as the store keeps it (milliseconds since the epoch). -/
abbrev Time := Nat

/-- The persisted entity `todoModel` (`src/Todo.go`, lines 34-39). -/
structure todoModel where
  ID : ObjectID
  Title : String
  Completed : Bool
  CreatedAt : Time
deriving DecidableEq

/-- The wire input `todo` (`src/Todo.go`, lines 41-44). -/
structure todo where
  Title : String
  Completed : Bool
deriving DecidableEq

/-- A Go `error` value: the description `Error()` returns, and the text that
`json.Marshal` writes for the value itself. For a struct type, `encoding/json`
writes the exported fields only; the description is among them only when the
concrete type exports it. -/
structure GoError where
  Error : String
  json : String
deriving DecidableEq

/-- The error `io.EOF`, which `Decoder.Decode` returns on an empty body: an
`*errors.errorString`, whose only field is unexported, so that `json.Marshal`
writes the empty object for it. -/
def io_EOF : GoError := ⟨"EOF", "\x7b\x7d"⟩

/-- The error `io.ErrUnexpectedEOF`, which `Decoder.Decode` returns on a body
that ends inside a JSON value; an `*errors.errorString` as well. -/
def io_ErrUnexpectedEOF : GoError := ⟨"unexpected EOF", "\x7b\x7d"⟩

/-- A Go slice `[]todoModel`: `none` is the nil slice (`encoding/json` writes it
as `null`), `some l` a non-nil slice with the elements `l` (written as an array,
`[]` when `l` is empty). -/
abbrev GoSlice := Option (List todoModel)

/-- The elements of a slice; the nil slice has none. -/
def GoSlice.items : GoSlice → List todoModel
  | none => []
  | some l => l

/-- The values the handlers pass to `rnd.JSON` as the response body. -/
inductive Payload where
  /-- An error value passed as the body itself: `rnd.JSON(w, status, err)`. -/
  | errorValue (err : GoError)
  /-- The map `renderer.M{"message": message}`. -/
  | message (message : String)
  /-- The map `renderer.M{"message": message, "error": err}`. -/
  | messageError (message : String) (err : GoError)
  /-- The map `renderer.M{"message": message, "todo_id": todo_id}`. -/
  | messageTodoID (message : String) (todo_id : List Nat)
  /-- The map `renderer.M{"data": todos}`. -/
  | data (todos : GoSlice)
deriving DecidableEq

/-- An HTTP response as a handler produces it: the status code and the value
rendered as the JSON body. -/
structure Response where
  status : Nat
  body : Payload
deriving DecidableEq

/-- The constant `http.StatusOK`. -/
abbrev StatusOK : Nat := 200

/-- The constant `http.StatusCreated`. -/
abbrev StatusCreated : Nat := 201

/-- The constant `http.StatusBadRequest`. -/
abbrev StatusBadRequest : Nat := 400

/-- The constant `http.StatusUnprocessableEntity`. -/
abbrev StatusUnprocessableEntity : Nat := 422

/-- The constant `http.StatusInternalServerError`. -/
abbrev StatusInternalServerError : Nat := 500

/-- The JSON text `rnd.JSON` writes when the body is an error value: what
`json.Marshal` gives for that value. -/
def Payload.errorText : Payload → Option String
  | .errorValue err => some err.json
  | _ => none

/-! ## `strings.TrimSpace` -/

/-- The predicate `unicode.IsSpace` of the standard library: the Latin-1 spaces `\t \n \v \f \r`,
space, U+0085, U+00A0, and beyond Latin-1 the code points with the property
`White_Space`. -/
def isSpace (r : Char) : Bool :=
  let n := r.toNat
  (9 ≤ n && n ≤ 13) || n == 0x20 || n == 0x85 || n == 0xA0 || n == 0x1680 ||
  (0x2000 ≤ n && n ≤ 0x200A) || n == 0x2028 || n == 0x2029 || n == 0x202F ||
  n == 0x205F || n == 0x3000

/-- The function `strings.TrimSpace` of the standard library: the string without
its leading and trailing white space (`unicode.IsSpace`). -/
def TrimSpace (s : String) : String :=
  String.mk ((s.data.dropWhile isSpace).reverse.dropWhile isSpace).reverse

/-! ## The todo collection of the document store -/

/-- The collection `todoCollection`: the stored documents, in the store's own
order. The store keeps the identifier (`_id`) unique within a collection. -/
structure Collection where
  docs : List todoModel
  unique_id : (docs.map todoModel.ID).Nodup
deriving DecidableEq

/-- The collection without documents. -/
def Collection.empty : Collection := ⟨[], List.nodup_nil⟩

/-- The document as `InsertOne` persists it: the field tag `bson:"_id,omitempty"`
leaves `_id` out when the identifier is zero, and the driver then adds an
identifier of its own (`driverID`). -/
def persisted (driverID : ObjectID) (doc : todoModel) : todoModel :=
  if doc.ID.IsZero then { doc with ID := driverID } else doc

/-- Modelled from the spec: the store operation `insertOne(doc) -> id | error`
(`Collection.InsertOne` of the MongoDB driver, not part of the repository's
sources). The call fails with `fail` when the round trip fails, and with
`duplicateKey` when a stored document already has the `_id`, and leaves the
collection as it was; otherwise the document is added. -/
def InsertOne (c : Collection) (fail : Option GoError) (duplicateKey : GoError)
    (driverID : ObjectID) (doc : todoModel) : Except GoError Collection :=
  match fail with
  | some err => .error err
  | none =>
    if h : (persisted driverID doc).ID ∈ c.docs.map todoModel.ID then .error duplicateKey
    else .ok ⟨c.docs ++ [persisted driverID doc], by
      rw [List.map_append, List.nodup_append]
      refine ⟨c.unique_id, List.nodup_singleton _, ?_⟩
      intro x hx hx2
      simp only [List.map_cons, List.map_nil, List.mem_singleton] at hx2
      exact h (hx2 ▸ hx)⟩

/-- Modelled from the spec: the store operation `findAll(filter) -> cursor of doc
| error` (`Collection.Find` with the empty filter): the cursor over all stored
documents, or the error of the round trip. -/
def Find (c : Collection) (fail : Option GoError) : Except GoError (List todoModel) :=
  match fail with
  | some err => .error err
  | none => .ok c.docs

/-- The method `Cursor.All` of the MongoDB driver (not part of the repository's
sources), as the driver documents it: it decodes every document of the cursor
into the slice `results` points to, or fails with the decode error. The slice
is overwritten and cut to the number of documents read; a nil slice is not
modified when the cursor holds no document. -/
def CursorAll (cursor : List todoModel) (fail : Option GoError) (results : GoSlice) :
    Except GoError GoSlice :=
  match fail with
  | some err => .error err
  | none =>
    match cursor with
    | [] => .ok (results.map (fun _ => []))
    | d :: ds => .ok (some (d :: ds))

/-- The update document `bson.M{"$set": bson.M{"title": ..., "completed": ...}}`
applied to one stored document. -/
def applySet (title : String) (completed : Bool) (d : todoModel) : todoModel :=
  { d with Title := title, Completed := completed }

/-- The number of stored documents whose `_id` is `id`. -/
def matchCount (c : Collection) (id : ObjectID) : Nat :=
  (c.docs.filter (fun d => d.ID = id)).length

/-- Modelled from the spec: the store operation `updateByID(id, partialDoc) ->
matchCount | error` (`Collection.UpdateByID`): sets `title` and `completed` of
the document whose `_id` is `id`, and reports how many documents matched. -/
def UpdateByID (c : Collection) (fail : Option GoError) (id : ObjectID) (title : String)
    (completed : Bool) : Except GoError (Nat × Collection) :=
  match fail with
  | some err => .error err
  | none =>
    .ok (matchCount c id,
      ⟨c.docs.map (fun d => if d.ID = id then applySet title completed d else d), by
        have hid : (todoModel.ID ∘ fun d => if d.ID = id then applySet title completed d else d)
            = todoModel.ID := by
          funext d
          simp only [Function.comp]
          split <;> rfl
        rw [List.map_map, hid]
        exact c.unique_id⟩)

/-- Modelled from the spec: the store operation `deleteOne(filter) -> matchCount |
error` (`Collection.DeleteOne` with the filter `bson.M{"_id": id}`): removes the
first document whose `_id` is `id`, and reports how many documents it removed. -/
def DeleteOne (c : Collection) (fail : Option GoError) (id : ObjectID) :
    Except GoError (Nat × Collection) :=
  match fail with
  | some err => .error err
  | none =>
    .ok (matchCount c id,
      ⟨c.docs.eraseP (fun d => d.ID = id),
        c.unique_id.sublist ((List.eraseP_sublist c.docs).map todoModel.ID)⟩)

/-! ## The handlers of `src/Todo.go` -/

/-- What `createTodo` takes from its surroundings: the results of
`primitive.NewObjectID()` and `time.Now()`, and the outcome of the store call.
`NewObjectID` builds an identifier from the current Unix time, a random value of
the process and a counter; it does not return the zero identifier. -/
structure CreateEnv where
  NewObjectID : ObjectID
  NewObjectID_ne_nil : NewObjectID ≠ NilObjectID
  Now : Time
  insertErr : Option GoError
  duplicateKey : GoError
  driverID : ObjectID

/-- The value `newTodo` that `createTodo` builds (`src/Todo.go`, lines 123-128):
the `completed` field of the input is not read. -/
def newTodo (e : CreateEnv) (t : todo) : todoModel :=
  { ID := e.NewObjectID, Title := t.Title, Completed := false, CreatedAt := e.Now }

/-- The handler `createTodo` (`src/Todo.go`, lines 111-137). `body` is the
outcome of `json.NewDecoder(r.Body).Decode(&t)`. -/
def createTodo (e : CreateEnv) (c : Collection) (body : Except GoError todo) :
    Response × Collection :=
  match body with
  | .error err => (⟨StatusUnprocessableEntity, .errorValue err⟩, c)
  | .ok t =>
    if TrimSpace t.Title = "" then
      (⟨StatusBadRequest, .message "The title field is required"⟩, c)
    else
      match InsertOne c e.insertErr e.duplicateKey e.driverID (newTodo e t) with
      | .error err =>
        (⟨StatusInternalServerError, .messageError "Failed to create todo" err⟩, c)
      | .ok c' =>
        (⟨StatusCreated, .messageTodoID "Todo created successfully" (newTodo e t).ID.Hex⟩, c')

/-- What `fetchTodos` takes from its surroundings: the outcomes of
`todoCollection.Find` and of `cursor.All`. -/
structure FetchEnv where
  findErr : Option GoError
  allErr : Option GoError

/-- The handler `fetchTodos` (`src/Todo.go`, lines 139-154). The slice `todos` is
declared by `var todos []todoModel`, the nil slice. -/
def fetchTodos (e : FetchEnv) (c : Collection) : Response × Collection :=
  match Find c e.findErr with
  | .error err => (⟨StatusInternalServerError, .messageError "Failed to fetch todos" err⟩, c)
  | .ok cursor =>
    let todos : GoSlice := none
    match CursorAll cursor e.allErr todos with
    | .error err =>
      (⟨StatusInternalServerError, .messageError "Cursor decode error" err⟩, c)
    | .ok todos => (⟨StatusOK, .data todos⟩, c)

/-- The handler `updateTodo` (`src/Todo.go`, lines 156-184). `idParam` is
`chi.URLParam(r, "id")`, `body` the outcome of decoding the request body, and
`updateErr` the outcome of the store call. -/
def updateTodo (updateErr : Option GoError) (c : Collection) (idParam : List Nat)
    (body : Except GoError todo) : Response × Collection :=
  match ObjectIDFromHex idParam with
  | .error _ => (⟨StatusBadRequest, .message "Invalid todo ID"⟩, c)
  | .ok objID =>
    match body with
    | .error err => (⟨StatusUnprocessableEntity, .errorValue err⟩, c)
    | .ok t =>
      match UpdateByID c updateErr objID t.Title t.Completed with
      | .error err =>
        (⟨StatusInternalServerError, .messageError "Failed to update todo" err⟩, c)
      | .ok (_, c') => (⟨StatusOK, .message "Todo updated successfully"⟩, c')

/-- The handler `deleteTodo` (`src/Todo.go`, lines 186-201). -/
def deleteTodo (deleteErr : Option GoError) (c : Collection) (idParam : List Nat) :
    Response × Collection :=
  match ObjectIDFromHex idParam with
  | .error _ => (⟨StatusBadRequest, .message "Invalid todo ID"⟩, c)
  | .ok objID =>
    match DeleteOne c deleteErr objID with
    | .error err =>
      (⟨StatusInternalServerError, .messageError "Failed to delete todo" err⟩, c)
    | .ok (_, c') => (⟨StatusOK, .message "Todo deleted successfully"⟩, c')

/-- A request to one of the routes that `todoHandlers` registers, with what the
handler takes from its surroundings while it serves the request. -/
inductive Request where
  /-- The route `GET /todo/`. -/
  | fetch (e : FetchEnv)
  /-- The route `POST /todo/`. -/
  | create (e : CreateEnv) (body : Except GoError todo)
  /-- The route `PUT /todo/{id}`. -/
  | update (updateErr : Option GoError) (idParam : List Nat) (body : Except GoError todo)
  /-- The route `DELETE /todo/{id}`. -/
  | delete (deleteErr : Option GoError) (idParam : List Nat)

/-- The router `todoHandlers` (`src/Todo.go`, lines 97-104): each route delegates
to its handler. -/
def todoHandlers (c : Collection) : Request → Response × Collection
  | .fetch e => fetchTodos e c
  | .create e body => createTodo e c body
  | .update updateErr idParam body => updateTodo updateErr c idParam body
  | .delete deleteErr idParam => deleteTodo deleteErr c idParam

/-- The collection after a sequence of requests served one after the other. -/
def serveAll (c : Collection) : List Request → Collection
  | [] => c
  | r :: rs => serveAll (todoHandlers c r).2 rs

/-- The request is an update or a delete addressed to the identifier `id`. -/
def Request.addresses (id : ObjectID) : Request → Prop
  | .fetch _ => False
  | .create _ _ => False
  | .update _ idParam _ => ObjectIDFromHex idParam = .ok id
  | .delete _ idParam => ObjectIDFromHex idParam = .ok id

/-- A syntactically valid identifier string: 24 bytes, each a hexadecimal digit
(of either case). -/
def validHex (s : List Nat) : Prop :=
  s.length = 24 ∧ ∀ b ∈ s, (fromHexChar b).isSome = true

instance (s : List Nat) : Decidable (validHex s) := by
  unfold validHex
  infer_instance

instance (id : ObjectID) (r : Request) : Decidable (r.addresses id) := by
  cases r <;> simp only [Request.addresses] <;> infer_instance

/-- The bytes of an ASCII text, as a Go string holds them. -/
def ascii (s : String) : List Nat := s.data.map Char.toNat

/-! ## Sample values -/

/-- An identifier as `primitive.NewObjectID()` returns it. -/
def sampleID : ObjectID :=
  ⟨[101, 67, 33, 15, 170, 187, 204, 221, 238, 255, 0, 1], by decide, by decide⟩

/-- A second identifier. -/
def otherID : ObjectID :=
  ⟨[101, 67, 33, 16, 170, 187, 204, 221, 238, 255, 0, 2], by decide, by decide⟩

/-- The surroundings of a `createTodo` whose store call succeeds. -/
def sampleEnv : CreateEnv :=
  { NewObjectID := sampleID
    NewObjectID_ne_nil := by decide
    Now := 1700000000000
    insertErr := none
    duplicateKey := ⟨"write exception: E11000 duplicate key error", "\x7b\x7d"⟩
    driverID := otherID }

/-- The surroundings of a `fetchTodos` whose store calls succeed. -/
def sampleFetch : FetchEnv := ⟨none, none⟩

/-- A stored item. -/
def sampleItem : todoModel := ⟨otherID, "water plants", false, 1690000000000⟩

/-- A collection holding one item. -/
def sampleCollection : Collection := ⟨[sampleItem], by decide⟩

/-- The input `{"title": "buy milk", "completed": true}`. -/
def sampleInput : todo := ⟨"buy milk", true⟩

/-- The item `createTodo` builds from `sampleInput` in `sampleEnv`. -/
def createdItem : todoModel := ⟨sampleID, "buy milk", false, 1700000000000⟩

/-- The sample collection after that item was inserted. -/
def createdCollection : Collection := ⟨[sampleItem, createdItem], by decide⟩

/-! ## Properties of the identifier codec -/

theorem fromHexChar_lt {c a : Nat} (h : fromHexChar c = some a) : a < 16 := by
  unfold fromHexChar at h
  split_ifs at h <;> simp at h <;> omega

theorem fromHexChar_hextable {n : Nat} (h : n < 16) : fromHexChar (hextable n) = some n := by
  unfold fromHexChar hextable
  split_ifs <;> first | omega | (simp <;> omega)

theorem hexDecode_hexEncode : ∀ (l : List Nat), (∀ b ∈ l, b < 256) →
    hexDecode (hexEncode l) = .ok l
  | [], _ => rfl
  | v :: rest, h => by
    have hv : v < 256 := h v (List.mem_cons_self _ _)
    have hrest : ∀ b ∈ rest, b < 256 := fun b hb => h b (List.mem_cons_of_mem _ hb)
    have h1 : fromHexChar (hextable (v / 16)) = some (v / 16) :=
      fromHexChar_hextable (by omega)
    have h2 : fromHexChar (hextable (v % 16)) = some (v % 16) :=
      fromHexChar_hextable (by omega)
    simp only [hexEncode, hexDecode, h1, h2, hexDecode_hexEncode rest hrest]
    congr 2
    omega

theorem hexEncode_length (l : List Nat) : (hexEncode l).length = 2 * l.length := by
  induction l with
  | nil => rfl
  | cons v rest ih => simp only [hexEncode, List.length_cons, ih]; omega

/-- Parsing the canonical string form of an identifier gives the identifier back. -/
theorem ObjectIDFromHex_Hex (id : ObjectID) : ObjectIDFromHex id.Hex = .ok id := by
  have hlen : (hexEncode id.bytes).length = 24 := by
    rw [hexEncode_length, id.size_eq]
  have hdec := hexDecode_hexEncode id.bytes id.byte_lt
  unfold ObjectIDFromHex ObjectID.Hex
  simp only [hlen, hdec, ne_eq, not_true_eq_false, if_false]
  rw [dif_pos ⟨id.size_eq, id.byte_lt⟩]

theorem hexDecode_ok_length : ∀ (s out : List Nat), hexDecode s = .ok out →
    s.length = 2 * out.length ∧ (∀ b ∈ s, (fromHexChar b).isSome = true) ∧ ∀ b ∈ out, b < 256
  | [], out, h => by
    simp only [hexDecode, Except.ok.injEq] at h
    subst h
    simp
  | [p], out, h => by
    simp only [hexDecode] at h
    split at h <;> simp at h
  | p :: q :: rest, out, h => by
    simp only [hexDecode] at h
    split at h
    · simp at h
    · rename_i a ha
      split at h
      · simp at h
      · rename_i b hb
        split at h
        · simp at h
        · rename_i tl htl
          simp only [Except.ok.injEq] at h
          subst h
          obtain ⟨h1, h2, h3⟩ := hexDecode_ok_length rest tl htl
          refine ⟨by simp only [List.length_cons, h1]; omega, ?_, ?_⟩
          · intro x hx
            rcases List.mem_cons.mp hx with rfl | hx
            · simp [ha]
            · rcases List.mem_cons.mp hx with rfl | hx
              · simp [hb]
              · exact h2 x hx
          · intro x hx
            rcases List.mem_cons.mp hx with rfl | hx
            · have := fromHexChar_lt ha
              have := fromHexChar_lt hb
              omega
            · exact h3 x hx

theorem hexDecode_of_digits : ∀ (n : Nat) (s : List Nat), s.length = 2 * n →
    (∀ b ∈ s, (fromHexChar b).isSome = true) → ∃ out, hexDecode s = .ok out
  | 0, s, hl, _ => by
    have : s = [] := List.length_eq_zero.mp (by omega)
    subst this
    exact ⟨[], rfl⟩
  | n + 1, s, hl, hd => by
    match s, hl, hd with
    | [], hl, _ => simp at hl
    | [_], hl, _ => simp at hl; omega
    | p :: q :: rest, hl, hd =>
      have hp := hd p (List.mem_cons_self _ _)
      have hq := hd q (List.mem_cons_of_mem _ (List.mem_cons_self _ _))
      obtain ⟨a, ha⟩ := Option.isSome_iff_exists.mp hp
      obtain ⟨b, hb⟩ := Option.isSome_iff_exists.mp hq
      obtain ⟨out, hout⟩ := hexDecode_of_digits n rest
        (by simp only [List.length_cons] at hl; omega)
        (fun x hx => hd x (List.mem_cons_of_mem _ (List.mem_cons_of_mem _ hx)))
      exact ⟨(a * 16 + b) :: out, by simp only [hexDecode, ha, hb, hout]⟩

/-- The identifier parser accepts exactly the strings of 24 hexadecimal digits. -/
theorem ObjectIDFromHex_ok_iff (s : List Nat) :
    (∃ id, ObjectIDFromHex s = .ok id) ↔ validHex s := by
  constructor
  · rintro ⟨id, h⟩
    unfold ObjectIDFromHex at h
    split_ifs at h with hlen
    split at h
    · simp at h
    · rename_i out hout
      obtain ⟨_, h2, _⟩ := hexDecode_ok_length s out hout
      exact ⟨by simpa using hlen, h2⟩
  · rintro ⟨hlen, hd⟩
    obtain ⟨out, hout⟩ := hexDecode_of_digits 12 s (by omega) hd
    obtain ⟨h1, _, h3⟩ := hexDecode_ok_length s out hout
    have hl : out.length = 12 := by omega
    refine ⟨⟨out, hl, h3⟩, ?_⟩
    unfold ObjectIDFromHex
    simp only [hlen, ne_eq, not_true_eq_false, if_false, hout]
    rw [dif_pos ⟨hl, h3⟩]

theorem ObjectIDFromHex_error_of_not_valid {s : List Nat} (h : ¬ validHex s) :
    ∃ err, ObjectIDFromHex s = .error err := by
  cases hs : ObjectIDFromHex s with
  | error err => exact ⟨err, rfl⟩
  | ok id => exact absurd ((ObjectIDFromHex_ok_iff s).mp ⟨id, hs⟩) h

/-! ## Properties of `strings.TrimSpace` -/

theorem String_mk_eq_empty (l : List Char) : String.mk l = "" ↔ l = [] := by
  constructor
  · intro h
    have := congrArg String.data h
    simpa using this
  · rintro rfl
    rfl

/-- A title is blank after trimming exactly when every code point of it is white
space (the empty title included). -/
theorem TrimSpace_eq_empty_iff (s : String) :
    TrimSpace s = "" ↔ ∀ ch ∈ s.data, isSpace ch = true := by
  unfold TrimSpace
  rw [String_mk_eq_empty, List.reverse_eq_nil_iff, List.dropWhile_eq_nil_iff]
  constructor
  · intro h
    have hnil : s.data.dropWhile isSpace = [] := by
      cases hd : s.data.dropWhile isSpace with
      | nil => rfl
      | cons x xs =>
        have hx : isSpace x = true := h x (by rw [hd]; simp)
        have := List.head_dropWhile_not isSpace s.data (by rw [hd]; simp)
        simp only [hd, List.head_cons] at this
        rw [hx] at this
        exact absurd this (by simp)
    exact List.dropWhile_eq_nil_iff.mp hnil
  · intro h x hx
    have hnil : s.data.dropWhile isSpace = [] := List.dropWhile_eq_nil_iff.mpr h
    rw [hnil] at hx
    simp at hx

/-! ## The rejecting paths -/

/-- C1: a decoded input whose title is empty or only white space, whatever its
`completed` value, has `strings.TrimSpace(title) == ""`; `createTodo` answers it
with status 400 and the body `{message: "The title field is required"}`, and the
collection after the call is the collection before it. -/
theorem createTodo_blank_title (e : CreateEnv) (c : Collection) (t : todo)
    (h : ∀ ch ∈ t.Title.data, isSpace ch = true) :
    TrimSpace t.Title = "" ∧
    createTodo e c (.ok t) = (⟨400, .message "The title field is required"⟩, c) := by
  have ht : TrimSpace t.Title = "" := (TrimSpace_eq_empty_iff t.Title).mpr h
  refine ⟨ht, ?_⟩
  simp only [createTodo, ht, if_true]

/-- C3: for a path parameter that is not a string of 24 hexadecimal digits,
`updateTodo` (for every body, also one that failed to decode, and every outcome
the store call could have had) and `deleteTodo` answer with status 400 and the
body `{message: "Invalid todo ID"}`, and leave the collection as it was. -/
theorem invalid_id_rejected (c : Collection) (idParam : List Nat) (h : ¬ validHex idParam)
    (updateErr deleteErr : Option GoError) (body : Except GoError todo) :
    updateTodo updateErr c idParam body = (⟨400, .message "Invalid todo ID"⟩, c) ∧
    deleteTodo deleteErr c idParam = (⟨400, .message "Invalid todo ID"⟩, c) := by
  obtain ⟨err, herr⟩ := ObjectIDFromHex_error_of_not_valid h
  simp only [updateTodo, deleteTodo, herr, and_self]

/-- A body that fails to decode is answered with status 422 by `createTodo`, and
by `updateTodo` when the identifier is valid; the body handed to the renderer is
the error value, and the collection is left as it was. -/
theorem decode_failure_status (c : Collection) (err : GoError) (e : CreateEnv)
    (updateErr : Option GoError) (id : ObjectID) :
    createTodo e c (.error err) = (⟨422, .errorValue err⟩, c) ∧
    updateTodo updateErr c id.Hex (.error err) = (⟨422, .errorValue err⟩, c) := by
  simp only [createTodo, updateTodo, ObjectIDFromHex_Hex, and_self]

/-! ## Properties of the collection -/

theorem Collection.eq_of_docs {a b : Collection} (h : a.docs = b.docs) : a = b := by
  cases a
  cases b
  simp only at h
  subst h
  rfl

theorem persisted_newTodo (e : CreateEnv) (t : todo) :
    persisted e.driverID (newTodo e t) = newTodo e t := by
  have hz : (newTodo e t).ID.IsZero = false := by
    simp only [ObjectID.IsZero, newTodo, decide_eq_false_iff_not]
    exact e.NewObjectID_ne_nil
  simp only [persisted, hz, Bool.false_eq_true, if_false]

theorem InsertOne_ok {c c' : Collection} {e : CreateEnv} {t : todo}
    (h : InsertOne c e.insertErr e.duplicateKey e.driverID (newTodo e t) = .ok c') :
    c'.docs = c.docs ++ [newTodo e t] ∧ ∀ x ∈ c.docs, x.ID ≠ e.NewObjectID := by
  unfold InsertOne at h
  split at h
  · simp at h
  · split_ifs at h with hmem
    simp only [Except.ok.injEq] at h
    subst h
    rw [persisted_newTodo] at hmem
    refine ⟨by simp only [persisted_newTodo], ?_⟩
    intro x hx hid
    apply hmem
    rw [List.mem_map]
    exact ⟨x, hx, hid⟩

theorem map_set_of_no_match {l : List todoModel} {id : ObjectID} (title : String)
    (completed : Bool) (h : ∀ d ∈ l, d.ID ≠ id) :
    l.map (fun d => if d.ID = id then applySet title completed d else d) = l := by
  induction l with
  | nil => rfl
  | cons x xs ih =>
    have hx : x.ID ≠ id := h x (List.mem_cons_self _ _)
    simp only [List.map_cons, hx, if_false]
    rw [ih (fun d hd => h d (List.mem_cons_of_mem _ hd))]

theorem eraseP_of_no_match {l : List todoModel} {id : ObjectID} (h : ∀ d ∈ l, d.ID ≠ id) :
    l.eraseP (fun d => d.ID = id) = l := by
  induction l with
  | nil => rfl
  | cons x xs ih =>
    have hx : x.ID ≠ id := h x (List.mem_cons_self _ _)
    simp only [List.eraseP_cons, hx, decide_False, cond_false]
    rw [ih (fun d hd => h d (List.mem_cons_of_mem _ hd))]

theorem filter_of_no_match {l : List todoModel} {id : ObjectID} (h : ∀ d ∈ l, d.ID ≠ id) :
    l.filter (fun d => d.ID = id) = [] := by
  rw [List.filter_eq_nil_iff]
  intro d hd
  simpa using h d hd

theorem eq_of_ID_eq {l : List todoModel} (hn : (l.map todoModel.ID).Nodup) {x d : todoModel}
    (hx : x ∈ l) (hd : d ∈ l) (h : x.ID = d.ID) : x = d :=
  List.inj_on_of_nodup_map hn hx hd h

theorem filter_ID_of_unique : ∀ {l : List todoModel}, (l.map todoModel.ID).Nodup →
    ∀ {d : todoModel}, d ∈ l → l.filter (fun x => x.ID = d.ID) = [d]
  | [], _, _, hd => by simp at hd
  | x :: xs, hn, d, hd => by
    have hn' : (xs.map todoModel.ID).Nodup := (List.nodup_cons.mp hn).2
    have hnot : x.ID ∉ xs.map todoModel.ID := (List.nodup_cons.mp hn).1
    by_cases hxd : x.ID = d.ID
    · have hxeq : x = d := eq_of_ID_eq hn (List.mem_cons_self _ _) hd hxd
      subst hxeq
      have hnone : ∀ y ∈ xs, y.ID ≠ x.ID := by
        intro y hy hyx
        exact hnot (List.mem_map.mpr ⟨y, hy, hyx⟩)
      simp only [List.filter_cons, decide_True, if_true, filter_of_no_match hnone]
    · have hd' : d ∈ xs := by
        rcases List.mem_cons.mp hd with h | h
        · exact absurd (congrArg todoModel.ID h).symm hxd
        · exact h
      simp only [List.filter_cons, hxd, decide_False, Bool.false_eq_true, if_false]
      exact filter_ID_of_unique hn' hd'

theorem eraseP_ID_of_unique : ∀ {l : List todoModel}, (l.map todoModel.ID).Nodup →
    ∀ {d : todoModel}, d ∈ l → l.eraseP (fun x => x.ID = d.ID) = l.erase d
  | [], _, _, hd => by simp at hd
  | x :: xs, hn, d, hd => by
    have hn' : (xs.map todoModel.ID).Nodup := (List.nodup_cons.mp hn).2
    by_cases hxd : x.ID = d.ID
    · have hxeq : x = d := eq_of_ID_eq hn (List.mem_cons_self _ _) hd hxd
      subst hxeq
      simp only [List.eraseP_cons, decide_True, cond_true, List.erase_cons_head]
    · have hne : x ≠ d := fun h => hxd (congrArg todoModel.ID h)
      have hd' : d ∈ xs := by
        rcases List.mem_cons.mp hd with h | h
        · exact absurd h.symm hne
        · exact h
      rw [List.erase_cons_tail (by simpa using hne)]
      simp only [List.eraseP_cons, hxd, decide_False, cond_false]
      rw [eraseP_ID_of_unique hn' hd']

theorem fetchTodos_ok (fe : FetchEnv) (hfind : fe.findErr = none) (hall : fe.allErr = none)
    (c : Collection) :
    ∃ todos, fetchTodos fe c = (⟨200, .data todos⟩, c) ∧ GoSlice.items todos = c.docs := by
  unfold fetchTodos Find CursorAll
  rw [hfind, hall]
  cases hdocs : c.docs with
  | nil => exact ⟨none, rfl, rfl⟩
  | cons d ds => exact ⟨some (d :: ds), rfl, rfl⟩

/-! ## Creating -/

/-- C2: for a decoded input with a non-blank title and either value of
`completed`, when the store insert succeeds `createTodo` answers 201 and the
collection afterwards is the collection before with exactly one more document:
its title is the input title, its `completed` is false, and its identifier is
the one `primitive.NewObjectID()` generated, which no document stored before the
call has. -/
theorem createTodo_persists (e : CreateEnv) (c c' : Collection) (t : todo)
    (htitle : TrimSpace t.Title ≠ "")
    (hins : InsertOne c e.insertErr e.duplicateKey e.driverID (newTodo e t) = .ok c') :
    createTodo e c (.ok t) =
      (⟨201, .messageTodoID "Todo created successfully" e.NewObjectID.Hex⟩, c') ∧
    c'.docs = c.docs ++ [⟨e.NewObjectID, t.Title, false, e.Now⟩] ∧
    ∀ x ∈ c.docs, x.ID ≠ e.NewObjectID := by
  obtain ⟨hdocs, hfresh⟩ := InsertOne_ok hins
  refine ⟨?_, hdocs, hfresh⟩
  simp only [createTodo, htitle, if_false, hins]
  rfl

/-! ## Identifiers that match no document -/

/-- C7: for a syntactically valid identifier that matches no stored document,
`updateTodo` (with any decoded body) and `deleteTodo` answer 200 with the same
success message as for a match, and the collection stays as it was; the
responses of both handlers are the same for every collection, whatever the
number of documents the identifier matches in it. -/
theorem no_match_same_response (c : Collection) (idParam : List Nat) (id : ObjectID)
    (hid : ObjectIDFromHex idParam = .ok id) (hno : ∀ d ∈ c.docs, d.ID ≠ id) (t : todo) :
    matchCount c id = 0 ∧
    updateTodo none c idParam (.ok t) = (⟨200, .message "Todo updated successfully"⟩, c) ∧
    deleteTodo none c idParam = (⟨200, .message "Todo deleted successfully"⟩, c) ∧
    (∀ (c2 : Collection) (updateErr : Option GoError) (body : Except GoError todo),
      (updateTodo updateErr c2 idParam body).1 = (updateTodo updateErr c idParam body).1) ∧
    (∀ (c2 : Collection) (deleteErr : Option GoError),
      (deleteTodo deleteErr c2 idParam).1 = (deleteTodo deleteErr c idParam).1) := by
  refine ⟨?_, ?_, ?_, ?_, ?_⟩
  · simp only [matchCount, filter_of_no_match hno, List.length_nil]
  · simp only [updateTodo, hid, UpdateByID]
    congr 1
    exact Collection.eq_of_docs (map_set_of_no_match _ _ hno)
  · simp only [deleteTodo, hid, DeleteOne]
    congr 1
    exact Collection.eq_of_docs (eraseP_of_no_match hno)
  · intro c2 updateErr body
    simp only [updateTodo, hid]
    cases body with
    | error err => rfl
    | ok u => cases updateErr <;> rfl
  · intro c2 deleteErr
    simp only [deleteTodo, hid]
    cases deleteErr <;> rfl

/-! ## Updating and deleting a stored document -/

/-- C4: for a stored item and a decoded input (its title is not validated: a
blank one is taken as it is), `updateTodo` addressed to the identifier of the
item, when the store call succeeds, answers 200 with
`{message: "Todo updated successfully"}`; a `fetchTodos` after it lists the
documents in which the item has exactly the given title and `completed`, and its
former identifier and `createdAt`, every other document being what it was; the
item is the only document listed under its identifier. -/
theorem updateTodo_existing (c : Collection) (d : todoModel) (hd : d ∈ c.docs)
    (idParam : List Nat) (hid : ObjectIDFromHex idParam = .ok d.ID) (t : todo)
    (fe : FetchEnv) (hfind : fe.findErr = none) (hall : fe.allErr = none) :
    (updateTodo none c idParam (.ok t)).1 = ⟨200, .message "Todo updated successfully"⟩ ∧
    ∃ todos, (fetchTodos fe (updateTodo none c idParam (.ok t)).2).1 = ⟨200, .data todos⟩ ∧
      GoSlice.items todos = c.docs.map (fun x =>
        if x.ID = d.ID then ⟨d.ID, t.Title, t.Completed, d.CreatedAt⟩ else x) ∧
      (GoSlice.items todos).filter (fun x => x.ID = d.ID) =
        [⟨d.ID, t.Title, t.Completed, d.CreatedAt⟩] := by
  have hfun : ∀ x ∈ c.docs, (if x.ID = d.ID then applySet t.Title t.Completed x else x) =
      (if x.ID = d.ID then (⟨d.ID, t.Title, t.Completed, d.CreatedAt⟩ : todoModel) else x) := by
    intro x hx
    by_cases hxd : x.ID = d.ID
    · have hxeq : x = d := eq_of_ID_eq c.unique_id hx hd hxd
      subst hxeq
      simp only [if_true, applySet]
    · simp only [hxd, if_false]
  have hdocs : (updateTodo none c idParam (.ok t)).2.docs = c.docs.map (fun x =>
      if x.ID = d.ID then ⟨d.ID, t.Title, t.Completed, d.CreatedAt⟩ else x) := by
    simp only [updateTodo, hid, UpdateByID]
    exact List.map_congr_left hfun
  refine ⟨by simp only [updateTodo, hid, UpdateByID], ?_⟩
  obtain ⟨todos, hfetch, hitems⟩ := fetchTodos_ok fe hfind hall (updateTodo none c idParam (.ok t)).2
  refine ⟨todos, by rw [hfetch], by rw [hitems, hdocs], ?_⟩
  rw [hitems, hdocs, List.filter_map]
  have hcomp : ((fun x : todoModel => decide (x.ID = d.ID)) ∘ fun x : todoModel =>
      if x.ID = d.ID then (⟨d.ID, t.Title, t.Completed, d.CreatedAt⟩ : todoModel) else x) =
      fun x => decide (x.ID = d.ID) := by
    funext x
    by_cases hxd : x.ID = d.ID <;> simp [hxd]
  rw [hcomp, filter_ID_of_unique c.unique_id hd]
  simp

/-- C5: for a stored item, `deleteTodo` addressed to its identifier, when the
store call succeeds, answers 200 with `{message: "Todo deleted successfully"}`;
a `fetchTodos` after it lists the documents without that item: no listed
document has its identifier, every other document is listed as it was, and
exactly one document is gone. -/
theorem deleteTodo_existing (c : Collection) (d : todoModel) (hd : d ∈ c.docs)
    (idParam : List Nat) (hid : ObjectIDFromHex idParam = .ok d.ID)
    (fe : FetchEnv) (hfind : fe.findErr = none) (hall : fe.allErr = none) :
    (deleteTodo none c idParam).1 = ⟨200, .message "Todo deleted successfully"⟩ ∧
    ∃ todos, (fetchTodos fe (deleteTodo none c idParam).2).1 = ⟨200, .data todos⟩ ∧
      GoSlice.items todos = c.docs.erase d ∧
      (∀ x ∈ GoSlice.items todos, x.ID ≠ d.ID) ∧
      (∀ x ∈ c.docs, x.ID ≠ d.ID → x ∈ GoSlice.items todos) ∧
      (GoSlice.items todos).length + 1 = c.docs.length := by
  have hdocs : (deleteTodo none c idParam).2.docs = c.docs.erase d := by
    simp only [deleteTodo, hid, DeleteOne]
    exact eraseP_ID_of_unique c.unique_id hd
  have hnodup : c.docs.Nodup := List.Nodup.of_map _ c.unique_id
  refine ⟨by simp only [deleteTodo, hid, DeleteOne], ?_⟩
  obtain ⟨todos, hfetch, hitems⟩ := fetchTodos_ok fe hfind hall (deleteTodo none c idParam).2
  refine ⟨todos, by rw [hfetch], by rw [hitems, hdocs], ?_, ?_, ?_⟩
  · intro x hx hxd
    rw [hitems, hdocs] at hx
    have hmem := (hnodup.mem_erase_iff).mp hx
    exact hmem.1 (eq_of_ID_eq c.unique_id hmem.2 hd hxd)
  · intro x hx hxd
    rw [hitems, hdocs]
    exact (hnodup.mem_erase_iff).mpr ⟨fun h => hxd (congrArg todoModel.ID h), hx⟩
  · rw [hitems, hdocs, List.length_erase_of_mem hd]
    have : 0 < c.docs.length := List.length_pos_of_mem hd
    omega

/-! ## A created item stays listed -/

theorem Hex_injective {a b : ObjectID} (h : a.Hex = b.Hex) : a = b := by
  have ha := ObjectIDFromHex_Hex a
  rw [h, ObjectIDFromHex_Hex b] at ha
  exact (Except.ok.inj ha).symm

theorem filter_eraseP_other {id id2 : ObjectID} (hne : id2 ≠ id) : ∀ (l : List todoModel),
    (l.eraseP (fun x => x.ID = id2)).filter (fun x => x.ID = id) =
      l.filter (fun x => x.ID = id)
  | [] => rfl
  | x :: xs => by
    by_cases hx2 : x.ID = id2
    · subst hx2
      simp only [List.eraseP_cons, decide_True, cond_true, List.filter_cons, hne,
        decide_False, Bool.false_eq_true, if_false]
    · simp only [List.eraseP_cons, hx2, decide_False, cond_false, List.filter_cons]
      rw [filter_eraseP_other hne xs]

theorem filter_map_set_other {id id2 : ObjectID} (hne : id2 ≠ id) (title : String)
    (completed : Bool) : ∀ (l : List todoModel),
    (l.map (fun x => if x.ID = id2 then applySet title completed x else x)).filter
      (fun x => x.ID = id) = l.filter (fun x => x.ID = id)
  | [] => rfl
  | x :: xs => by
    by_cases hx2 : x.ID = id2
    · subst hx2
      have hx' : (applySet title completed x).ID ≠ id := hne
      simp only [List.map_cons, if_true, List.filter_cons, hne, hx', decide_False,
        Bool.false_eq_true, if_false]
      exact filter_map_set_other hne title completed xs
    · simp only [List.map_cons, hx2, if_false, List.filter_cons]
      rw [filter_map_set_other hne title completed xs]

/-- A request that is no update or delete addressed to `id` leaves the documents
stored under `id` as they are. -/
theorem todoHandlers_preserves (id : ObjectID) (d : todoModel) (c : Collection) (r : Request)
    (hr : ¬ r.addresses id) (hinv : c.docs.filter (fun x => x.ID = id) = [d]) :
    (todoHandlers c r).2.docs.filter (fun x => x.ID = id) = [d] := by
  cases r with
  | fetch fe =>
    simp only [todoHandlers, fetchTodos]
    split
    · exact hinv
    · split <;> exact hinv
  | create e body =>
    cases body with
    | error err => exact hinv
    | ok t =>
      simp only [todoHandlers, createTodo]
      split_ifs
      · exact hinv
      · split
        · exact hinv
        · rename_i c2 hins
          obtain ⟨hdocs, hfresh⟩ := InsertOne_ok hins
          have hd : d ∈ c.docs.filter (fun x => x.ID = id) := by rw [hinv]; simp
          have hdmem := (List.mem_filter.mp hd).1
          have hdid : d.ID = id := by simpa using (List.mem_filter.mp hd).2
          have hnew : (newTodo e t).ID ≠ id := fun h => hfresh d hdmem (hdid.trans h.symm)
          simp only [hdocs, List.filter_append, hinv, List.filter_cons, hnew, decide_False,
            Bool.false_eq_true, if_false, List.filter_nil, List.append_nil]
  | update updateErr idParam body =>
    simp only [todoHandlers, updateTodo]
    split
    · exact hinv
    · rename_i id2 hid2
      have hne : id2 ≠ id := fun h => hr (by simp only [Request.addresses, hid2, h])
      split
      · exact hinv
      · cases updateErr with
        | some err => exact hinv
        | none =>
          simp only [UpdateByID]
          rw [filter_map_set_other hne]
          exact hinv
  | delete deleteErr idParam =>
    simp only [todoHandlers, deleteTodo]
    split
    · exact hinv
    · rename_i id2 hid2
      have hne : id2 ≠ id := fun h => hr (by simp only [Request.addresses, hid2, h])
      cases deleteErr with
      | some err => exact hinv
      | none =>
        simp only [DeleteOne]
        rw [filter_eraseP_other hne]
        exact hinv

theorem serveAll_preserves (id : ObjectID) (d : todoModel) : ∀ (reqs : List Request)
    (c : Collection), (∀ r ∈ reqs, ¬ r.addresses id) →
    c.docs.filter (fun x => x.ID = id) = [d] →
    (serveAll c reqs).docs.filter (fun x => x.ID = id) = [d]
  | [], _, _, hinv => hinv
  | r :: rs, c, hreqs, hinv =>
    serveAll_preserves id d rs (todoHandlers c r).2
      (fun r' hr' => hreqs r' (List.mem_cons_of_mem _ hr'))
      (todoHandlers_preserves id d c r (hreqs r (List.mem_cons_self _ _)) hinv)

/-- A create that answers 201 decoded a non-blank title and its insert succeeded. -/
theorem createTodo_created {e : CreateEnv} {c c' : Collection} {t : todo} {msg : String}
    {todo_id : List Nat}
    (h : createTodo e c (.ok t) = (⟨201, .messageTodoID msg todo_id⟩, c')) :
    todo_id = e.NewObjectID.Hex ∧ c'.docs = c.docs ++ [newTodo e t] ∧
      ∀ x ∈ c.docs, x.ID ≠ e.NewObjectID := by
  simp only [createTodo] at h
  split_ifs at h with hblank
  · simp at h
  · split at h
    · simp at h
    · rename_i c2 hins
      obtain ⟨hdocs, hfresh⟩ := InsertOne_ok hins
      simp only [Prod.mk.injEq, Response.mk.injEq, Payload.messageTodoID.injEq] at h
      obtain ⟨⟨_, _, htid⟩, hc⟩ := h
      subst hc
      exact ⟨htid.symm, hdocs, hfresh⟩

/-- C6: after a `createTodo` that answered 201 with a `todo_id`, and after any
further requests none of which is an update or a delete addressed to the created
identifier, a `fetchTodos` whose store calls succeed answers 200 with a `data`
list in which exactly one entry has the `todo_id` as its identifier: the item
with the supplied title, `completed` false and the `createdAt` of the creation. -/
theorem created_item_listed (e : CreateEnv) (c c' : Collection) (t : todo) (msg : String)
    (todo_id : List Nat)
    (hcreate : createTodo e c (.ok t) = (⟨201, .messageTodoID msg todo_id⟩, c'))
    (reqs : List Request) (hreqs : ∀ r ∈ reqs, ¬ r.addresses e.NewObjectID)
    (fe : FetchEnv) (hfind : fe.findErr = none) (hall : fe.allErr = none) :
    ∃ todos, (fetchTodos fe (serveAll c' reqs)).1 = ⟨200, .data todos⟩ ∧
      (GoSlice.items todos).filter (fun x => x.ID.Hex = todo_id) =
        [⟨e.NewObjectID, t.Title, false, e.Now⟩] := by
  obtain ⟨htid, hdocs, hfresh⟩ := createTodo_created hcreate
  have hinv0 : c'.docs.filter (fun x => x.ID = e.NewObjectID) = [newTodo e t] := by
    rw [hdocs, List.filter_append, filter_of_no_match hfresh]
    simp [newTodo]
  have hinv := serveAll_preserves e.NewObjectID (newTodo e t) reqs c' hreqs hinv0
  obtain ⟨todos, hfetch, hitems⟩ := fetchTodos_ok fe hfind hall (serveAll c' reqs)
  refine ⟨todos, by rw [hfetch], ?_⟩
  have hpred : (fun x : todoModel => decide (x.ID.Hex = todo_id)) =
      fun x => decide (x.ID = e.NewObjectID) := by
    funext x
    rw [htid]
    by_cases hx : x.ID = e.NewObjectID
    · simp [hx]
    · have : x.ID.Hex ≠ e.NewObjectID.Hex := fun h => hx (Hex_injective h)
      simp [hx, this]
  rw [hitems, hpred, hinv]
  rfl

/-! ## The wire form of two responses -/

/-- C8 at the empty collection: `fetchTodos`, its store calls succeeding, answers
200 with the `data` slice still the nil slice it was declared as, which
`encoding/json` writes as `null`, not as `[]`; with a document stored, `data` is
the non-nil slice of the stored documents. -/
theorem fetchTodos_empty_collection :
    fetchTodos ⟨none, none⟩ Collection.empty = (⟨200, .data none⟩, Collection.empty) ∧
    Payload.data none ≠ Payload.data (some []) ∧
    fetchTodos ⟨none, none⟩ sampleCollection =
      (⟨200, .data (some [sampleItem])⟩, sampleCollection) := by
  refine ⟨rfl, by simp, rfl⟩

/-- C9 at the empty request body: `Decode` returns `io.EOF`; `createTodo`, and
`updateTodo` with a valid identifier, answer 422 and leave the collection as it
was, and the body is the marshalled error value, the text `{}`: the same text as
for `io.ErrUnexpectedEOF`, whose description is another one. -/
theorem decode_EOF_body (e : CreateEnv) (c : Collection) (updateErr : Option GoError)
    (id : ObjectID) :
    createTodo e c (.error io_EOF) = (⟨422, .errorValue io_EOF⟩, c) ∧
    updateTodo updateErr c id.Hex (.error io_EOF) = (⟨422, .errorValue io_EOF⟩, c) ∧
    (Payload.errorValue io_EOF).errorText = some "\x7b\x7d" ∧
    (Payload.errorValue io_ErrUnexpectedEOF).errorText = some "\x7b\x7d" ∧
    io_EOF.Error ≠ io_ErrUnexpectedEOF.Error := by
  refine ⟨rfl, ?_, rfl, rfl, by decide⟩
  simp only [updateTodo, ObjectIDFromHex_Hex]

/-! ## The `todo_id` of a created item -/

/-- C10: parsing the `Hex()` form of any identifier succeeds and gives that
identifier; so for the `todo_id` of a `createTodo` that answered 201,
`updateTodo` and `deleteTodo` never answer 400, in whatever collection and with
whatever body and store outcome, and when their store call succeeds they
address exactly the created item: the update sets the title and `completed` of
that item and the delete removes it, all documents stored before the create
staying as they were. -/
theorem todo_id_roundtrip :
    (∀ id : ObjectID, ObjectIDFromHex id.Hex = .ok id) ∧
    ∀ (e : CreateEnv) (c c' : Collection) (t : todo) (msg : String) (todo_id : List Nat),
      createTodo e c (.ok t) = (⟨201, .messageTodoID msg todo_id⟩, c') →
      ObjectIDFromHex todo_id = .ok e.NewObjectID ∧
      (∀ (c2 : Collection) (updateErr : Option GoError) (body : Except GoError todo),
        (updateTodo updateErr c2 todo_id body).1.status ≠ 400) ∧
      (∀ (c2 : Collection) (deleteErr : Option GoError),
        (deleteTodo deleteErr c2 todo_id).1.status ≠ 400) ∧
      (∀ u : todo, (updateTodo none c' todo_id (.ok u)).2.docs =
        c.docs ++ [⟨e.NewObjectID, u.Title, u.Completed, e.Now⟩]) ∧
      (deleteTodo none c' todo_id).2.docs = c.docs := by
  refine ⟨ObjectIDFromHex_Hex, ?_⟩
  intro e c c' t msg todo_id hcreate
  obtain ⟨htid, hdocs, hfresh⟩ := createTodo_created hcreate
  have hparse : ObjectIDFromHex todo_id = .ok e.NewObjectID := by
    rw [htid]
    exact ObjectIDFromHex_Hex _
  refine ⟨hparse, ?_, ?_, ?_, ?_⟩
  · intro c2 updateErr body
    simp only [updateTodo, hparse]
    cases body with
    | error err => simp
    | ok u => cases updateErr <;> simp [UpdateByID]
  · intro c2 deleteErr
    simp only [deleteTodo, hparse]
    cases deleteErr <;> simp [DeleteOne]
  · intro u
    simp only [updateTodo, hparse, UpdateByID, hdocs, List.map_append]
    rw [map_set_of_no_match _ _ hfresh]
    simp [newTodo, applySet]
  · simp only [deleteTodo, hparse, DeleteOne, hdocs]
    rw [List.eraseP_append_right _ (by
      intro x hx
      simpa using hfresh x hx)]
    simp [newTodo]

/-! ## The theorems at sample values -/

theorem createTodo_blank_title_witness :
    (∀ ch ∈ (todo.mk " \t\n" true).Title.data, isSpace ch = true) ∧
    TrimSpace (todo.mk " \t\n" true).Title = "" ∧
    createTodo sampleEnv sampleCollection (.ok ⟨" \t\n", true⟩) =
      (⟨400, .message "The title field is required"⟩, sampleCollection) :=
  ⟨by decide, createTodo_blank_title sampleEnv sampleCollection ⟨" \t\n", true⟩ (by decide)⟩

theorem createTodo_persists_witness :
    TrimSpace sampleInput.Title ≠ "" ∧
    InsertOne sampleCollection sampleEnv.insertErr sampleEnv.duplicateKey sampleEnv.driverID
      (newTodo sampleEnv sampleInput) = .ok createdCollection ∧
    createTodo sampleEnv sampleCollection (.ok sampleInput) =
      (⟨201, .messageTodoID "Todo created successfully" sampleEnv.NewObjectID.Hex⟩,
        createdCollection) ∧
    createdCollection.docs = sampleCollection.docs ++
      [⟨sampleEnv.NewObjectID, sampleInput.Title, false, sampleEnv.Now⟩] ∧
    ∀ x ∈ sampleCollection.docs, x.ID ≠ sampleEnv.NewObjectID :=
  ⟨by decide, by decide,
    createTodo_persists sampleEnv sampleCollection createdCollection sampleInput
      (by decide) (by decide)⟩

theorem invalid_id_rejected_witness :
    ¬ validHex (ascii "65432110aabbccddeeff000g") ∧
    updateTodo none sampleCollection (ascii "65432110aabbccddeeff000g") (.error io_EOF) =
      (⟨400, .message "Invalid todo ID"⟩, sampleCollection) ∧
    deleteTodo none sampleCollection (ascii "65432110aabbccddeeff000g") =
      (⟨400, .message "Invalid todo ID"⟩, sampleCollection) :=
  ⟨by decide,
    invalid_id_rejected sampleCollection (ascii "65432110aabbccddeeff000g") (by decide)
      none none (.error io_EOF)⟩

theorem updateTodo_existing_witness :
    sampleItem ∈ sampleCollection.docs ∧
    ObjectIDFromHex (ascii "65432110AABBCCDDEEFF0002") = .ok sampleItem.ID ∧
    sampleFetch.findErr = none ∧ sampleFetch.allErr = none ∧
    (updateTodo none sampleCollection (ascii "65432110AABBCCDDEEFF0002") (.ok ⟨"", true⟩)).1 =
      ⟨200, .message "Todo updated successfully"⟩ ∧
    ∃ todos, (fetchTodos sampleFetch (updateTodo none sampleCollection
        (ascii "65432110AABBCCDDEEFF0002") (.ok ⟨"", true⟩)).2).1 = ⟨200, .data todos⟩ ∧
      GoSlice.items todos = sampleCollection.docs.map (fun x =>
        if x.ID = sampleItem.ID then ⟨sampleItem.ID, "", true, sampleItem.CreatedAt⟩ else x) ∧
      (GoSlice.items todos).filter (fun x => x.ID = sampleItem.ID) =
        [⟨sampleItem.ID, "", true, sampleItem.CreatedAt⟩] :=
  ⟨by decide, by decide, rfl, rfl,
    updateTodo_existing sampleCollection sampleItem (by decide)
      (ascii "65432110AABBCCDDEEFF0002") (by decide) ⟨"", true⟩ sampleFetch rfl rfl⟩

theorem deleteTodo_existing_witness :
    createdItem ∈ createdCollection.docs ∧
    ObjectIDFromHex (ascii "6543210faabbccddeeff0001") = .ok createdItem.ID ∧
    sampleFetch.findErr = none ∧ sampleFetch.allErr = none ∧
    (deleteTodo none createdCollection (ascii "6543210faabbccddeeff0001")).1 =
      ⟨200, .message "Todo deleted successfully"⟩ ∧
    ∃ todos, (fetchTodos sampleFetch
        (deleteTodo none createdCollection (ascii "6543210faabbccddeeff0001")).2).1 =
        ⟨200, .data todos⟩ ∧
      GoSlice.items todos = createdCollection.docs.erase createdItem ∧
      (∀ x ∈ GoSlice.items todos, x.ID ≠ createdItem.ID) ∧
      (∀ x ∈ createdCollection.docs, x.ID ≠ createdItem.ID → x ∈ GoSlice.items todos) ∧
      (GoSlice.items todos).length + 1 = createdCollection.docs.length :=
  ⟨by decide, by decide, rfl, rfl,
    deleteTodo_existing createdCollection createdItem (by decide)
      (ascii "6543210faabbccddeeff0001") (by decide) sampleFetch rfl rfl⟩

theorem created_item_listed_witness :
    createTodo sampleEnv sampleCollection (.ok sampleInput) =
      (⟨201, .messageTodoID "Todo created successfully" (ascii "6543210faabbccddeeff0001")⟩,
        createdCollection) ∧
    (∀ r ∈ [Request.fetch sampleFetch,
        Request.update none (ascii "65432110aabbccddeeff0002") (.ok ⟨"water the plants", true⟩),
        Request.delete none (ascii "65432110aabbccddeeff0002"),
        Request.update none (ascii "6543210faabbccddeeff0001x") (.ok ⟨"", true⟩)],
      ¬ r.addresses sampleEnv.NewObjectID) ∧
    sampleFetch.findErr = none ∧ sampleFetch.allErr = none ∧
    ∃ todos, (fetchTodos sampleFetch (serveAll createdCollection
        [Request.fetch sampleFetch,
          Request.update none (ascii "65432110aabbccddeeff0002") (.ok ⟨"water the plants", true⟩),
          Request.delete none (ascii "65432110aabbccddeeff0002"),
          Request.update none (ascii "6543210faabbccddeeff0001x") (.ok ⟨"", true⟩)])).1 =
        ⟨200, .data todos⟩ ∧
      (GoSlice.items todos).filter (fun x => x.ID.Hex = ascii "6543210faabbccddeeff0001") =
        [⟨sampleEnv.NewObjectID, sampleInput.Title, false, sampleEnv.Now⟩] :=
  ⟨by decide, by decide, rfl, rfl,
    created_item_listed sampleEnv sampleCollection createdCollection sampleInput
      "Todo created successfully" (ascii "6543210faabbccddeeff0001") (by decide) _ (by decide)
      sampleFetch rfl rfl⟩

theorem no_match_same_response_witness :
    ObjectIDFromHex (ascii "6543210faabbccddeeff0001") = .ok sampleID ∧
    (∀ d ∈ sampleCollection.docs, d.ID ≠ sampleID) ∧
    matchCount sampleCollection sampleID = 0 ∧
    updateTodo none sampleCollection (ascii "6543210faabbccddeeff0001") (.ok sampleInput) =
      (⟨200, .message "Todo updated successfully"⟩, sampleCollection) ∧
    deleteTodo none sampleCollection (ascii "6543210faabbccddeeff0001") =
      (⟨200, .message "Todo deleted successfully"⟩, sampleCollection) ∧
    (updateTodo none createdCollection (ascii "6543210faabbccddeeff0001") (.ok sampleInput)).1 =
      (updateTodo none sampleCollection (ascii "6543210faabbccddeeff0001") (.ok sampleInput)).1 ∧
    (deleteTodo none createdCollection (ascii "6543210faabbccddeeff0001")).1 =
      (deleteTodo none sampleCollection (ascii "6543210faabbccddeeff0001")).1 :=
  have h := no_match_same_response sampleCollection (ascii "6543210faabbccddeeff0001") sampleID
    (by decide) (by decide) sampleInput
  ⟨by decide, by decide, h.1, h.2.1, h.2.2.1,
    h.2.2.2.1 createdCollection none (.ok sampleInput), h.2.2.2.2 createdCollection none⟩

theorem todo_id_roundtrip_witness :
    createTodo sampleEnv sampleCollection (.ok sampleInput) =
      (⟨201, .messageTodoID "Todo created successfully" (ascii "6543210faabbccddeeff0001")⟩,
        createdCollection) ∧
    ObjectIDFromHex (ascii "6543210faabbccddeeff0001") = .ok sampleEnv.NewObjectID ∧
    (updateTodo none Collection.empty (ascii "6543210faabbccddeeff0001")
      (.error io_EOF)).1.status ≠ 400 ∧
    (deleteTodo (some io_EOF) Collection.empty (ascii "6543210faabbccddeeff0001")).1.status
      ≠ 400 ∧
    (updateTodo none createdCollection (ascii "6543210faabbccddeeff0001")
      (.ok ⟨"buy oat milk", true⟩)).2.docs =
      sampleCollection.docs ++ [⟨sampleEnv.NewObjectID, "buy oat milk", true, sampleEnv.Now⟩] ∧
    (deleteTodo none createdCollection (ascii "6543210faabbccddeeff0001")).2.docs =
      sampleCollection.docs :=
  have h := todo_id_roundtrip.2 sampleEnv sampleCollection createdCollection sampleInput
    "Todo created successfully" (ascii "6543210faabbccddeeff0001") (by decide)
  ⟨by decide, h.1, h.2.1 Collection.empty none (.error io_EOF),
    h.2.2.1 Collection.empty (some io_EOF), h.2.2.2.1 ⟨"buy oat milk", true⟩, h.2.2.2.2⟩

end Todo
